import Mathlib

/-!
Verification of the in-memory session store of `src/uploader_service.py`
(`session_set`, `session_get`, `touch_session`, `_janitor`).

The Python store is the module-level dict `_sessions : Dict[str, Dict]`,
mapping a session id to a per-session dict that holds both the user fields
and the last-touched timestamp under the reserved key `"ts"`.  We embed a
Python dict as an association list over `String` keys (insertion order is
irrelevant to every property proved here; `insertA` mirrors `d[k] = v` by
replacing the first binding of `k` or appending a fresh one).  Timestamps
(`time.time()`) are modelled as natural numbers passed explicitly to each
operation; field values are strings or booleans, and the timestamp slot
holds a `vTime`.
-/

inductive Value where
  | vStr (s : String)
  | vBool (b : Bool)
  | vTime (t : Nat)
deriving DecidableEq, Repr

/-- A per-session dict: user fields plus the reserved `"ts"` slot. -/
abbrev Record := List (String × Value)

/-- The `_sessions` dict: session id to record. -/
abbrev Store := List (String × Record)

/-- `d.get(k)`: first binding of `k`, if any. -/
def lookupA {α : Type} : List (String × α) → String → Option α
  | [], _ => none
  | (k, v) :: rest, key => if k = key then some v else lookupA rest key

/-- `d[k] = v`: replace the first binding of `k`, or append one. -/
def insertA {α : Type} : List (String × α) → String → α → List (String × α)
  | [], key, v => [(key, v)]
  | (k, v') :: rest, key, v =>
      if k = key then (k, v) :: rest else (k, v') :: insertA rest key v

/-- `session_set` (src/uploader_service.py:68-72):
`_sessions.setdefault(session_id, {"ts": time.time()})`, then
`_sessions[session_id][key] = value`, then
`_sessions[session_id]["ts"] = time.time()`. -/
def session_set (st : Store) (session_id key : String) (value : Value)
    (now : Nat) : Store :=
  let r0 := (lookupA st session_id).getD [("ts", Value.vTime now)]
  let r1 := insertA r0 key value
  let r2 := insertA r1 "ts" (Value.vTime now)
  insertA st session_id r2

/-- `session_get` (src/uploader_service.py:74-76):
`(_sessions.get(session_id) or {}).get(key)`.  (A missing record and an
empty record both yield `{}` before the field lookup.) -/
def session_get (st : Store) (session_id key : String) : Option Value :=
  lookupA ((lookupA st session_id).getD []) key

/-- `session_get` paired with the store it leaves behind.  The Python body
only reads `_sessions` under the lock and assigns nothing, so the store
component is the input store; this form makes the frame property statable. -/
def session_getS (st : Store) (session_id key : String) :
    Option Value × Store :=
  (session_get st session_id key, st)

/-- `touch_session` (src/uploader_service.py:78-81):
`_sessions.setdefault(session_id, {"ts": time.time()})`, then
`_sessions[session_id]["ts"] = time.time()`. -/
def touch_session (st : Store) (session_id : String) (now : Nat) : Store :=
  let r0 := (lookupA st session_id).getD [("ts", Value.vTime now)]
  insertA st session_id (insertA r0 "ts" (Value.vTime now))

/-- The reaper's sleep period: `time.sleep(60)` (src/uploader_service.py:85). -/
def sweepPeriod : Nat := 60

/-- The inactivity window: `60 * 30` seconds (src/uploader_service.py:86). -/
def inactivityWindow : Nat := 60 * 30

/-- `_sessions[k]["ts"] < cutoff` for one record: `some b` when the record
has a `"ts"` timestamp (as the reaper assumes), `none` when the unconditional
lookup would raise. -/
def recExpired (r : Record) (cutoff : Int) : Option Bool :=
  match lookupA r "ts" with
  | some (Value.vTime t) => some (decide ((t : Int) < cutoff))
  | _ => none

/-- The reaper's scan over `list(_sessions.keys())`, deleting every record
whose `"ts"` is strictly below the cutoff; `none` if some record lacks a
`"ts"` timestamp. -/
def sweepGo : Store → Int → Option Store
  | [], _ => some []
  | (k, r) :: rest, cutoff =>
      match recExpired r cutoff, sweepGo rest cutoff with
      | some true, some st => some st
      | some false, some st => some ((k, r) :: st)
      | _, _ => none

/-- One iteration of the `_janitor` loop body (src/uploader_service.py:86-90):
`cutoff = time.time() - (60 * 30)`, then delete every expired record. -/
def janitor_sweep (st : Store) (now : Nat) : Option Store :=
  sweepGo st ((now : Int) - (inactivityWindow : Int))

/-- A record carries a `"ts"` timestamp, as the reaper's unconditional
`_sessions[k]["ts"]` lookup assumes. -/
def recWF (r : Record) : Bool :=
  match lookupA r "ts" with
  | some (Value.vTime _) => true
  | _ => false

/-- Every record in the store carries a `"ts"` timestamp. -/
def storeWF (st : Store) : Bool :=
  st.all fun p => recWF p.2

/-- No session id is bound twice (true of a Python dict). -/
def keysNodup : Store → Bool
  | [] => true
  | (k, _) :: rest => (lookupA rest k).isNone && keysNodup rest

/-- The Boolean eviction test on a well-formed record. -/
def expiredB (r : Record) (cutoff : Int) : Bool :=
  match lookupA r "ts" with
  | some (Value.vTime t) => decide ((t : Int) < cutoff)
  | _ => false

/-- One caller-visible event against the store: the three operations, plus
one reaper sweep. -/
inductive Op where
  | touch (s : String) (t : Nat)
  | set (s : String) (f : String) (v : Value) (t : Nat)
  | get (s : String) (f : String)
  | sweep (t : Nat)
deriving DecidableEq, Repr

/-- Whether the event is a reaper sweep. -/
def Op.isSweep : Op → Bool
  | .sweep _ => true
  | _ => false

/-- Whether the event touches, writes or reads the given session id. -/
def Op.mentions : Op → String → Bool
  | .touch s' _, s => s' == s
  | .set s' _ _ _, s => s' == s
  | .get s' _, s => s' == s
  | .sweep _, _ => false

/-- Whether the event is a touch or a set of the given session id (the
record-creating events). -/
def Op.creates : Op → String → Bool
  | .touch s' _, s => s' == s
  | .set s' _ _ _, s => s' == s
  | _, _ => false

/-- Apply one event to the store; a sweep fails when some record lacks its
`"ts"` timestamp. -/
def applyOp (st : Store) : Op → Option Store
  | .touch s t => some (touch_session st s t)
  | .set s f v t => some (session_set st s f v t)
  | .get s f => some (session_getS st s f).2
  | .sweep t => janitor_sweep st t

/-- Run a sequence of events, stopping at the first failure. -/
def runTrace (st : Store) : List Op → Option Store
  | [] => some st
  | op :: rest =>
      match applyOp st op with
      | some st' => runTrace st' rest
      | none => none

/-! ### Association-list lemmas -/

theorem lookupA_insertA_self {α : Type} (l : List (String × α)) (k : String)
    (v : α) : lookupA (insertA l k v) k = some v := by
  induction l with
  | nil => simp [insertA, lookupA]
  | cons p rest ih =>
      obtain ⟨k', v'⟩ := p
      by_cases h : k' = k
      · simp [insertA, lookupA, h]
      · simp [insertA, lookupA, h, ih]

theorem lookupA_insertA_ne {α : Type} (l : List (String × α)) {k key : String}
    (v : α) (h : k ≠ key) : lookupA (insertA l k v) key = lookupA l key := by
  induction l with
  | nil => simp [insertA, lookupA, h]
  | cons p rest ih =>
      obtain ⟨k', v'⟩ := p
      by_cases h' : k' = k
      · subst h'
        simp [insertA, lookupA, h]
      · simp [insertA, lookupA, h', ih]

theorem lookupA_filter_none {α : Type} (l : List (String × α)) (k : String)
    (P : String × α → Bool) (h : lookupA l k = none) :
    lookupA (l.filter P) k = none := by
  induction l with
  | nil => simp [lookupA]
  | cons p rest ih =>
      obtain ⟨k', v'⟩ := p
      by_cases hk : k' = k
      · simp [lookupA, hk] at h
      · simp only [lookupA, if_neg hk] at h
        by_cases hp : P (k', v')
        · simp [List.filter_cons, hp, lookupA, hk, ih h]
        · simp [List.filter_cons, hp, ih h]

/-! ### Well-formedness lemmas -/

theorem recWF_insert_ts (r : Record) (t : Nat) :
    recWF (insertA r "ts" (Value.vTime t)) = true := by
  simp [recWF, lookupA_insertA_self]

theorem storeWF_cons (k : String) (r : Record) (rest : Store) :
    storeWF ((k, r) :: rest) = (recWF r && storeWF rest) := by
  simp [storeWF]

theorem storeWF_lookup {st : Store} {k : String} {r : Record}
    (hwf : storeWF st = true) (h : lookupA st k = some r) : recWF r = true := by
  induction st with
  | nil => simp [lookupA] at h
  | cons p rest ih =>
      obtain ⟨k', r'⟩ := p
      rw [storeWF_cons, Bool.and_eq_true] at hwf
      by_cases hk : k' = k
      · simp only [lookupA, if_pos hk] at h
        cases h
        exact hwf.1
      · simp only [lookupA, if_neg hk] at h
        exact ih hwf.2 h

theorem storeWF_insertA {st : Store} {r : Record} (k : String)
    (hwf : storeWF st = true) (hr : recWF r = true) :
    storeWF (insertA st k r) = true := by
  induction st with
  | nil => simp [insertA, storeWF, hr]
  | cons p rest ih =>
      obtain ⟨k', r'⟩ := p
      rw [storeWF_cons, Bool.and_eq_true] at hwf
      by_cases hk : k' = k
      · simp only [insertA, if_pos hk]
        rw [storeWF_cons]
        simp [hr, hwf.2]
      · simp only [insertA, if_neg hk]
        rw [storeWF_cons]
        simp [hwf.1, ih hwf.2]

theorem storeWF_filter {st : Store} (P : String × Record → Bool)
    (hwf : storeWF st = true) : storeWF (st.filter P) = true := by
  induction st with
  | nil => simp [storeWF]
  | cons p rest ih =>
      obtain ⟨k', r'⟩ := p
      rw [storeWF_cons, Bool.and_eq_true] at hwf
      by_cases hp : P (k', r')
      · simp only [List.filter_cons, hp, if_pos]
        rw [storeWF_cons]
        simp [hwf.1, ih hwf.2]
      · simp [List.filter_cons, hp, ih hwf.2]

theorem storeWF_session_set (st : Store) (s f : String) (v : Value) (now : Nat)
    (hwf : storeWF st = true) : storeWF (session_set st s f v now) = true :=
  storeWF_insertA s hwf (recWF_insert_ts _ now)

theorem storeWF_touch_session (st : Store) (s : String) (now : Nat)
    (hwf : storeWF st = true) : storeWF (touch_session st s now) = true :=
  storeWF_insertA s hwf (recWF_insert_ts _ now)

/-! ### Sweep lemmas -/

theorem recExpired_of_recWF {r : Record} (c : Int) (h : recWF r = true) :
    recExpired r c = some (expiredB r c) := by
  unfold recWF at h
  unfold recExpired expiredB
  cases hl : lookupA r "ts" with
  | none => rw [hl] at h; simp at h
  | some v =>
      cases v with
      | vStr s => rw [hl] at h; simp at h
      | vBool b => rw [hl] at h; simp at h
      | vTime t => rfl

theorem sweepGo_eq_filter {st : Store} (c : Int) (hwf : storeWF st = true) :
    sweepGo st c = some (st.filter fun p => !expiredB p.2 c) := by
  induction st with
  | nil => simp [sweepGo]
  | cons p rest ih =>
      obtain ⟨k, r⟩ := p
      rw [storeWF_cons, Bool.and_eq_true] at hwf
      rw [List.filter_cons]
      cases he : expiredB r c
      · simp only [sweepGo, recExpired_of_recWF c hwf.1, he, ih hwf.2,
          Bool.not_false, if_pos]
      · simp only [sweepGo, recExpired_of_recWF c hwf.1, he, ih hwf.2,
          Bool.not_true, Bool.false_eq_true, if_false]

theorem lookupA_filter_nodup {st : Store} {k : String} {r : Record}
    (P : String × Record → Bool) (hnd : keysNodup st = true)
    (h : lookupA st k = some r) :
    lookupA (st.filter P) k = if P (k, r) then some r else none := by
  induction st with
  | nil => simp [lookupA] at h
  | cons p rest ih =>
      obtain ⟨k', r'⟩ := p
      simp only [keysNodup, Bool.and_eq_true, Option.isNone_iff_eq_none] at hnd
      by_cases hk : k' = k
      · subst hk
        simp only [lookupA, if_pos rfl] at h
        cases h
        by_cases hp : P (k', r)
        · simp [List.filter_cons, hp, lookupA]
        · simp [List.filter_cons, hp, lookupA_filter_none rest k' P hnd.1]
      · simp only [lookupA, if_neg hk] at h
        by_cases hp : P (k', r')
        · simp [List.filter_cons, hp, lookupA, hk, ih hnd.2 h]
        · simp [List.filter_cons, hp, ih hnd.2 h]

/-! ### Operation lemmas -/

theorem session_set_record (st : Store) (s f : String) (v : Value) (now : Nat) :
    lookupA (session_set st s f v now) s =
      some (insertA (insertA ((lookupA st s).getD [("ts", Value.vTime now)])
        f v) "ts" (Value.vTime now)) := by
  unfold session_set
  exact lookupA_insertA_self st s _

theorem session_set_get_self (st : Store) (s f : String) (v : Value)
    (now : Nat) (hf : f ≠ "ts") :
    session_get (session_set st s f v now) s f = some v := by
  unfold session_get
  rw [session_set_record, Option.getD_some,
    lookupA_insertA_ne _ _ (fun h => hf h.symm), lookupA_insertA_self]

theorem session_set_get_other (st : Store) (s f g : String) (v : Value)
    (now : Nat) (hgf : g ≠ f) (hgts : g ≠ "ts") :
    session_get (session_set st s f v now) s g = session_get st s g := by
  unfold session_get
  rw [session_set_record, Option.getD_some,
    lookupA_insertA_ne _ _ (fun h => hgts h.symm),
    lookupA_insertA_ne _ _ (fun h => hgf h.symm)]
  cases h : lookupA st s with
  | none => simp [h, lookupA, Ne.symm hgts]
  | some r => simp [h]

theorem session_set_other_session (st : Store) (s f : String) (v : Value)
    (now : Nat) {k : String} (hk : k ≠ s) :
    lookupA (session_set st s f v now) k = lookupA st k := by
  unfold session_set
  exact lookupA_insertA_ne st _ (fun h => hk h.symm)

theorem session_set_ts (st : Store) (s f : String) (v : Value) (now : Nat) :
    session_get (session_set st s f v now) s "ts" = some (Value.vTime now) := by
  unfold session_get
  rw [session_set_record, Option.getD_some, lookupA_insertA_self]

theorem touch_session_record (st : Store) (s : String) (now : Nat) :
    lookupA (touch_session st s now) s =
      some (insertA ((lookupA st s).getD [("ts", Value.vTime now)])
        "ts" (Value.vTime now)) := by
  unfold touch_session
  exact lookupA_insertA_self st s _

theorem touch_session_absent_record (st : Store) (s : String) (now : Nat)
    (h : lookupA st s = none) :
    lookupA (touch_session st s now) s = some [("ts", Value.vTime now)] := by
  rw [touch_session_record, h]
  rfl

theorem touch_session_absent_get (st : Store) (s f : String) (now : Nat)
    (h : lookupA st s = none) (hf : f ≠ "ts") :
    session_get (touch_session st s now) s f = none := by
  unfold session_get
  rw [touch_session_absent_record st s now h, Option.getD_some]
  simp [lookupA, Ne.symm hf]

theorem touch_session_other_session (st : Store) (s : String) (now : Nat)
    {k : String} (hk : k ≠ s) :
    lookupA (touch_session st s now) k = lookupA st k := by
  unfold touch_session
  exact lookupA_insertA_ne st _ (fun h => hk h.symm)

theorem touch_session_ts (st : Store) (s : String) (now : Nat) :
    session_get (touch_session st s now) s "ts" = some (Value.vTime now) := by
  unfold session_get
  rw [touch_session_record, Option.getD_some, lookupA_insertA_self]

theorem session_get_of_absent (st : Store) (s f : String)
    (h : lookupA st s = none) : session_get st s f = none := by
  unfold session_get
  rw [h]
  rfl

/-! ### Trace lemmas -/

theorem sweepGo_absent {s : String} :
    ∀ (st : Store) (c : Int) (st' : Store), sweepGo st c = some st' →
      lookupA st s = none → lookupA st' s = none := by
  intro st
  induction st with
  | nil =>
      intro c st' hstep h
      simp only [sweepGo, Option.some_inj] at hstep
      rw [← hstep]
      rfl
  | cons p rest ih =>
      intro c st' hstep h
      obtain ⟨k, r⟩ := p
      have hks : ¬ k = s := by
        intro hk
        simp [lookupA, hk] at h
      simp only [lookupA, if_neg hks] at h
      cases he : recExpired r c with
      | none => simp [sweepGo, he] at hstep
      | some b =>
          cases hsw : sweepGo rest c with
          | none => cases b <;> simp [sweepGo, he, hsw] at hstep
          | some st2 =>
              have h2 := ih c st2 hsw h
              cases b
              · simp only [sweepGo, he, hsw, Option.some_inj] at hstep
                rw [← hstep]
                simp [lookupA, hks, h2]
              · simp only [sweepGo, he, hsw, Option.some_inj] at hstep
                rw [← hstep]
                exact h2

theorem applyOp_wf {st : Store} (op : Op) (hwf : storeWF st = true) :
    ∃ st', applyOp st op = some st' ∧ storeWF st' = true := by
  cases op with
  | touch s t => exact ⟨_, rfl, storeWF_touch_session st s t hwf⟩
  | set s f v t => exact ⟨_, rfl, storeWF_session_set st s f v t hwf⟩
  | get s f => exact ⟨st, rfl, hwf⟩
  | sweep t =>
      refine ⟨st.filter fun p => !expiredB p.2 ((t : Int) - (inactivityWindow : Int)),
        ?_, storeWF_filter _ hwf⟩
      show janitor_sweep st t = _
      unfold janitor_sweep
      exact sweepGo_eq_filter _ hwf

theorem applyOp_absent {st st' : Store} {s : String} (op : Op)
    (hm : Op.mentions op s = false) (h : lookupA st s = none)
    (happ : applyOp st op = some st') : lookupA st' s = none := by
  cases op with
  | touch s' t =>
      simp only [applyOp, Option.some_inj] at happ
      rw [← happ, touch_session_other_session st s' t
        (Ne.symm (by simpa [Op.mentions] using hm))]
      exact h
  | set s' f v t =>
      simp only [applyOp, Option.some_inj] at happ
      rw [← happ, session_set_other_session st s' f v t
        (Ne.symm (by simpa [Op.mentions] using hm))]
      exact h
  | get s' f =>
      simp only [applyOp, session_getS, Option.some_inj] at happ
      rw [← happ]
      exact h
  | sweep t => exact sweepGo_absent st _ st' happ h

theorem applyOp_nonsweep {st : Store} (op : Op) (s : String)
    (hns : Op.isSweep op = false) :
    ∃ st', applyOp st op = some st' ∧
      (lookupA st' s).isSome = (Op.creates op s || (lookupA st s).isSome) := by
  cases op with
  | touch s' t =>
      refine ⟨_, rfl, ?_⟩
      by_cases hk : s' = s
      · subst hk
        rw [touch_session_record]
        simp [Op.creates]
      · rw [touch_session_other_session st s' t (Ne.symm hk)]
        simp [Op.creates, hk]
  | set s' f v t =>
      refine ⟨_, rfl, ?_⟩
      by_cases hk : s' = s
      · subst hk
        rw [session_set_record]
        simp [Op.creates]
      · rw [session_set_other_session st s' f v t (Ne.symm hk)]
        simp [Op.creates, hk]
  | get s' f => exact ⟨st, rfl, by simp [Op.creates]⟩
  | sweep t => simp [Op.isSweep] at hns

theorem runTrace_wf (ops : List Op) :
    ∀ st : Store, storeWF st = true →
      ∃ st', runTrace st ops = some st' ∧ storeWF st' = true := by
  induction ops with
  | nil => intro st hwf; exact ⟨st, rfl, hwf⟩
  | cons op rest ih =>
      intro st hwf
      obtain ⟨st1, happ, hwf1⟩ := applyOp_wf op hwf
      obtain ⟨st', hrun, hwf'⟩ := ih st1 hwf1
      exact ⟨st', by simp only [runTrace, happ, hrun], hwf'⟩

theorem runTrace_nonsweep_presence (s : String) (ops : List Op) :
    ∀ st : Store, (ops.all fun op => ! Op.isSweep op) = true →
      ∃ st', runTrace st ops = some st' ∧
        (lookupA st' s).isSome =
          ((ops.any fun op => Op.creates op s) || (lookupA st s).isSome) := by
  induction ops with
  | nil =>
      intro st _
      exact ⟨st, rfl, by simp⟩
  | cons op rest ih =>
      intro st hns
      simp only [List.all_cons, Bool.and_eq_true, Bool.not_eq_true'] at hns
      obtain ⟨st1, happ, heq⟩ := @applyOp_nonsweep st op s hns.1
      obtain ⟨st', hrun, heq'⟩ :=
        ih st1 (by simpa [List.all_eq_true, Bool.not_eq_true'] using hns.2)
      refine ⟨st', by simp only [runTrace, happ, hrun], ?_⟩
      rw [heq', heq, List.any_cons]
      cases Op.creates op s <;>
        cases hany : (rest.any fun op => Op.creates op s) <;> simp

theorem runTrace_absent (s : String) (ops : List Op) :
    ∀ st : Store, storeWF st = true → lookupA st s = none →
      (ops.all fun op => ! Op.mentions op s) = true →
      ∃ st', runTrace st ops = some st' ∧ lookupA st' s = none := by
  induction ops with
  | nil => intro st _ habs _; exact ⟨st, rfl, habs⟩
  | cons op rest ih =>
      intro st hwf habs hm
      simp only [List.all_cons, Bool.and_eq_true, Bool.not_eq_true'] at hm
      obtain ⟨st1, happ, hwf1⟩ := applyOp_wf op hwf
      have habs1 := applyOp_absent op hm.1 habs happ
      obtain ⟨st', hrun, habs'⟩ :=
        ih st1 hwf1 habs1 (by simpa [List.all_eq_true, Bool.not_eq_true'] using hm.2)
      exact ⟨st', by simp only [runTrace, happ, hrun], habs'⟩

/-! ### Claim theorems -/

/-- Claim C1, counterexample: the field namespace shares the per-session
dict with the reserved timestamp key, so `SetField(s, "ts", v)` followed by
`GetField(s, "ts")` returns the refreshed timestamp, not `v`. -/
theorem c1_counterexample :
    session_get (session_set [] "s" "ts" (Value.vStr "x") 7) "s" "ts" ≠
      some (Value.vStr "x") := by decide

/-- Claim C1 (amended): for every field name `f` other than the reserved
timestamp key `"ts"`, immediately after `SetField(s, f, v)`,
`GetField(s, f)` returns `v`. -/
theorem c1_set_then_get (st : Store) (s f : String) (v : Value) (now : Nat)
    (hf : f ≠ "ts") :
    session_get (session_set st s f v now) s f = some v :=
  session_set_get_self st s f v now hf

/-- Witness for C1 at a concrete input. -/
theorem c1_set_then_get_witness :
    ("url" ≠ "ts") ∧
      session_get (session_set [] "a" "url" (Value.vStr "u") 5) "a" "url" =
        some (Value.vStr "u") :=
  ⟨by decide, c1_set_then_get [] "a" "url" (Value.vStr "u") 5 (by decide)⟩

/-- Claim C2, counterexample: `Touch` writes the timestamp into the same
dict that `GetField` reads, so after `Touch(s)` on an absent session,
`GetField(s, "ts")` returns the timestamp rather than absent. -/
theorem c2_counterexample :
    session_get (touch_session [] "s" 5) "s" "ts" ≠ none := by decide

/-- Claim C2 (amended): immediately after `Touch(s)` on a previously absent
session, `GetField(s, f)` returns absent for every field name `f` other
than the reserved timestamp key `"ts"`. -/
theorem c2_touch_creates_no_field (st : Store) (s f : String) (now : Nat)
    (h : lookupA st s = none) (hf : f ≠ "ts") :
    session_get (touch_session st s now) s f = none :=
  touch_session_absent_get st s f now h hf

/-- Witness for C2 at a concrete input. -/
theorem c2_touch_creates_no_field_witness :
    lookupA ([] : Store) "a" = none ∧ ("url" ≠ "ts") ∧
      session_get (touch_session [] "a" 5) "a" "url" = none :=
  ⟨rfl, by decide, c2_touch_creates_no_field [] "a" "url" 5 rfl (by decide)⟩

/-- Claim C3: one reaper sweep at time `now` removes exactly the records
whose `"ts"` timestamp is strictly below `now - inactivityWindow`
(`inactivityWindow = 60 * 30`); after a sweep evicts `s`, `GetField(s, f)`
is absent for every `f`, and a subsequent `Touch(s)` recreates a record
holding only the fresh timestamp. -/
theorem c3_reaper_evicts_exactly_expired (st : Store) (now : Nat)
    (hwf : storeWF st = true) (hnd : keysNodup st = true) :
    ∃ st', janitor_sweep st now = some st' ∧
      (∀ s r t, lookupA st s = some r →
        lookupA r "ts" = some (Value.vTime t) →
        lookupA st' s =
          if (t : Int) < (now : Int) - (inactivityWindow : Int) then none
          else some r) ∧
      (∀ s, lookupA st s = none → lookupA st' s = none) ∧
      (∀ s f, lookupA st' s = none → session_get st' s f = none) ∧
      (∀ s tn, lookupA st' s = none →
        lookupA (touch_session st' s tn) s = some [("ts", Value.vTime tn)]) := by
  refine ⟨st.filter fun p =>
      !expiredB p.2 ((now : Int) - (inactivityWindow : Int)), ?_, ?_, ?_, ?_, ?_⟩
  · unfold janitor_sweep
    exact sweepGo_eq_filter _ hwf
  · intro s r t h1 h2
    rw [lookupA_filter_nodup _ hnd h1]
    unfold expiredB
    rw [h2]
    by_cases ht : (t : Int) < (now : Int) - (inactivityWindow : Int) <;>
      simp [ht]
  · intro s h
    exact lookupA_filter_none st s _ h
  · intro s f h
    exact session_get_of_absent _ s f h
  · intro s tn h
    exact touch_session_absent_record _ s tn h

/-- Witness for C3 at a concrete store: at time 1900 with cutoff 100, the
record touched at 0 is evicted and the record touched at 2000 survives. -/
theorem c3_reaper_evicts_exactly_expired_witness :
    storeWF [("a", [("ts", Value.vTime 0)]), ("b", [("ts", Value.vTime 2000)])]
        = true ∧
      keysNodup [("a", [("ts", Value.vTime 0)]),
        ("b", [("ts", Value.vTime 2000)])] = true ∧
      (∃ st', janitor_sweep [("a", [("ts", Value.vTime 0)]),
          ("b", [("ts", Value.vTime 2000)])] 1900 = some st' ∧
        (∀ s r t,
          lookupA [("a", [("ts", Value.vTime 0)]),
            ("b", [("ts", Value.vTime 2000)])] s = some r →
          lookupA r "ts" = some (Value.vTime t) →
          lookupA st' s =
            if (t : Int) < (1900 : Int) - (inactivityWindow : Int) then none
            else some r) ∧
        (∀ s, lookupA [("a", [("ts", Value.vTime 0)]),
            ("b", [("ts", Value.vTime 2000)])] s = none →
          lookupA st' s = none) ∧
        (∀ s f, lookupA st' s = none → session_get st' s f = none) ∧
        (∀ s tn, lookupA st' s = none →
          lookupA (touch_session st' s tn) s =
            some [("ts", Value.vTime tn)])) :=
  ⟨by decide, by decide,
    c3_reaper_evicts_exactly_expired _ 1900 (by decide) (by decide)⟩

/-- Claim C4, counterexample: a plain `GetField` on an absent session id
does not create a record — the store left behind by the read still has no
entry for the id, contradicting "first access of any kind implicitly
creates the record". -/
theorem c4_counterexample :
    (lookupA ((session_getS [] "sess" "url").snd) "sess").isSome = false := by
  decide

/-- Claim C4 (amended): starting from a store with no record for `s`, after
any sequence of operations containing no eviction sweep, a record for `s`
exists if and only if the sequence contains a `Touch` or `SetField` on `s`;
a plain `GetField` never creates a record. -/
theorem c4_record_exists_iff_touched_or_set (st : Store) (s : String)
    (ops : List Op) (h1 : lookupA st s = none)
    (h2 : (ops.all fun op => ! Op.isSweep op) = true) :
    ∃ st', runTrace st ops = some st' ∧
      (lookupA st' s).isSome = (ops.any fun op => Op.creates op s) := by
  obtain ⟨st', hrun, heq⟩ := runTrace_nonsweep_presence s ops st h2
  exact ⟨st', hrun, by simpa [h1] using heq⟩

/-- Witness for C4: one read of `"a"` creates nothing, a later touch does. -/
theorem c4_record_exists_iff_touched_or_set_witness :
    lookupA ([] : Store) "a" = none ∧
      (([Op.get "a" "url", Op.touch "a" 3].all fun op => ! Op.isSweep op)
        = true) ∧
      (∃ st', runTrace [] [Op.get "a" "url", Op.touch "a" 3] = some st' ∧
        (lookupA st' "a").isSome =
          ([Op.get "a" "url", Op.touch "a" 3].any fun op => Op.creates op "a")) :=
  ⟨rfl, by decide,
    c4_record_exists_iff_touched_or_set [] "a" _ rfl (by decide)⟩

/-- Claim C5, counterexample: a plain `GetField` leaves the store — and in
particular the `"ts"` timestamp — untouched, so the timestamp is NOT
refreshed on reads, contradicting "updated on every read-or-write access". -/
theorem c5_counterexample :
    (session_getS [("s", [("ts", Value.vTime 3)])] "s" "url").snd =
        [("s", [("ts", Value.vTime 3)])] ∧
      session_get ((session_getS [("s", [("ts", Value.vTime 3)])] "s"
        "url").snd) "s" "ts" = some (Value.vTime 3) := by
  exact ⟨rfl, rfl⟩

/-- Claim C5 (amended): the `"ts"` timestamp is refreshed to the operation
time by every `SetField` and every `Touch`, while a plain `GetField`
leaves the whole store (hence the timestamp) unchanged. -/
theorem c5_ts_refreshed_by_set_and_touch (st : Store) (s f : String)
    (v : Value) (now : Nat) :
    session_get (session_set st s f v now) s "ts" = some (Value.vTime now) ∧
      session_get (touch_session st s now) s "ts" = some (Value.vTime now) ∧
      (session_getS st s f).snd = st :=
  ⟨session_set_ts st s f v now, touch_session_ts st s now, rfl⟩

/-- Claim C6: `GetField` leaves the store completely unchanged — it creates
no record, refreshes no timestamp, and modifies no field. -/
theorem c6_get_leaves_store_unchanged (st : Store) (s f : String) :
    (session_getS st s f).snd = st := rfl

/-- Claim C7: for a session id `s` never touched, set or read by any
operation since the (empty) initial store, `GetField(s, f)` returns the
absent sentinel for every field `f`; absence is an ordinary result, not an
error (the embedded `session_get` is total and returns an `Option`). -/
theorem c7_get_on_unknown_session_is_absent (ops : List Op) (s : String)
    (h : (ops.all fun op => ! Op.mentions op s) = true) :
    ∃ st', runTrace [] ops = some st' ∧ ∀ f, session_get st' s f = none := by
  obtain ⟨st', hrun, habs⟩ := runTrace_absent s ops [] rfl rfl h
  exact ⟨st', hrun, fun f => session_get_of_absent st' s f habs⟩

/-- Witness for C7: after touching `"a"` and one sweep, reads of the
never-mentioned id `"b"` are absent. -/
theorem c7_get_on_unknown_session_is_absent_witness :
    (([Op.touch "a" 0, Op.sweep 5000].all fun op => ! Op.mentions op "b")
      = true) ∧
      (∃ st', runTrace [] [Op.touch "a" 0, Op.sweep 5000] = some st' ∧
        ∀ f, session_get st' "b" f = none) :=
  ⟨by decide, c7_get_on_unknown_session_is_absent _ "b" (by decide)⟩

/-- Claim C8, counterexample: on the reserved timestamp key `"ts"`, setting
the same value twice does not leave that value readable — the second write's
timestamp refresh wins. -/
theorem c8_counterexample :
    session_get (session_set (session_set [] "s" "ts" (Value.vBool true) 1)
        "s" "ts" (Value.vBool true) 2) "s" "ts" ≠
      some (Value.vBool true) := by decide

/-- Claim C8 (amended): for every field name `f` other than the reserved
timestamp key `"ts"`, setting `v` twice leaves `GetField(s, f) = v`
(idempotence), and setting `v` then `v2` leaves `GetField(s, f) = v2`
(last-write-wins). -/
theorem c8_set_idempotent_and_last_write_wins (st : Store) (s f : String)
    (v v2 : Value) (t1 t2 : Nat) (hf : f ≠ "ts") :
    session_get (session_set (session_set st s f v t1) s f v t2) s f =
        some v ∧
      session_get (session_set (session_set st s f v t1) s f v2 t2) s f =
        some v2 :=
  ⟨session_set_get_self _ s f v t2 hf, session_set_get_self _ s f v2 t2 hf⟩

/-- Witness for C8 at a concrete input. -/
theorem c8_set_idempotent_and_last_write_wins_witness :
    ("url" ≠ "ts") ∧
      session_get (session_set (session_set [] "a" "url" (Value.vStr "u") 1)
        "a" "url" (Value.vStr "u") 2) "a" "url" = some (Value.vStr "u") ∧
      session_get (session_set (session_set [] "a" "url" (Value.vStr "u") 1)
        "a" "url" (Value.vStr "w") 2) "a" "url" = some (Value.vStr "w") :=
  ⟨by decide,
    (c8_set_idempotent_and_last_write_wins [] "a" "url" (Value.vStr "u")
      (Value.vStr "w") 1 2 (by decide)).1,
    (c8_set_idempotent_and_last_write_wins [] "a" "url" (Value.vStr "u")
      (Value.vStr "w") 1 2 (by decide)).2⟩

/-- Claim C9: every store whose records all carry a `"ts"` timestamp keeps
that invariant under any sequence of touch/set/get/sweep events, every such
sequence runs to completion, and on every reachable store the reaper's
unconditional `_sessions[k]["ts"]` lookup succeeds (the sweep never fails). -/
theorem c9_ts_invariant_and_sweep_never_fails (st : Store) (ops : List Op)
    (hwf : storeWF st = true) :
    ∃ st', runTrace st ops = some st' ∧ storeWF st' = true ∧
      ∀ tn : Nat, (janitor_sweep st' tn).isSome = true := by
  obtain ⟨st', hrun, hwf'⟩ := runTrace_wf ops st hwf
  refine ⟨st', hrun, hwf', fun tn => ?_⟩
  unfold janitor_sweep
  rw [sweepGo_eq_filter _ hwf']
  rfl

/-- Witness for C9 on a concrete run with a sweep and a write. -/
theorem c9_ts_invariant_and_sweep_never_fails_witness :
    storeWF [("a", [("url", Value.vStr "u"), ("ts", Value.vTime 2)])] = true ∧
      (∃ st', runTrace [("a", [("url", Value.vStr "u"), ("ts", Value.vTime 2)])]
          [Op.sweep 4000, Op.set "b" "url" (Value.vStr "x") 9] = some st' ∧
        storeWF st' = true ∧
        ∀ tn : Nat, (janitor_sweep st' tn).isSome = true) :=
  ⟨by decide,
    c9_ts_invariant_and_sweep_never_fails _
      [Op.sweep 4000, Op.set "b" "url" (Value.vStr "x") 9] (by decide)⟩

/-- Claim C10: `SetField(s, f, v)` changes no other session's record, and
within session `s`'s record changes at most the field `f` and the `"ts"`
timestamp. -/
theorem c10_set_frame (st : Store) (s f : String) (v : Value) (now : Nat) :
    (∀ k, k ≠ s → lookupA (session_set st s f v now) k = lookupA st k) ∧
      (∀ g, g ≠ f → g ≠ "ts" →
        session_get (session_set st s f v now) s g = session_get st s g) :=
  ⟨fun _ hk => session_set_other_session st s f v now hk,
   fun g h1 h2 => session_set_get_other st s f g v now h1 h2⟩

/-- Witness for C10 at a concrete input. -/
theorem c10_set_frame_witness :
    ("b" ≠ "a") ∧ ("x" ≠ "url") ∧ ("x" ≠ "ts") ∧
      lookupA (session_set [("b", [("ts", Value.vTime 1)])] "a" "url"
          (Value.vStr "u") 5) "b" =
        lookupA [("b", [("ts", Value.vTime 1)])] "b" ∧
      session_get (session_set [("b", [("ts", Value.vTime 1)])] "a" "url"
          (Value.vStr "u") 5) "a" "x" =
        session_get [("b", [("ts", Value.vTime 1)])] "a" "x" :=
  ⟨by decide, by decide, by decide,
    (c10_set_frame [("b", [("ts", Value.vTime 1)])] "a" "url"
      (Value.vStr "u") 5).1 "b" (by decide),
    (c10_set_frame [("b", [("ts", Value.vTime 1)])] "a" "url"
      (Value.vStr "u") 5).2 "x" (by decide) (by decide)⟩
